import Mathlib

/-
Verification of the QuickLot ATR pipeline.

Shallow embedding of the two scripts of the repository,
scripts/build_market.py (snapshot mode) and scripts/build_history.py
(historical mode).  Python floats are modelled by the type Fl below:
NaN, the two infinities, and finite values modelled as exact rationals.
pandas NaN-skipping row maxima, rolling means with min_periods, dropna,
and the truthiness guards of the scripts are transcribed explicitly.
Mappings (Python dicts, insertion-ordered) are association lists.
-/

/-- Model of a Python float: NaN, the infinities, or a finite value
(finite arithmetic is modelled exactly, over the rationals). -/
inductive Fl where
  | nan : Fl
  | inf : Fl
  | ninf : Fl
  | fin : ℚ → Fl
deriving DecidableEq

/-- Model of pandas notna / math.isnan: true exactly on NaN. -/
def Fl.isNaN : Fl → Bool
  | .nan => true
  | _ => false

/-- True on the two infinities (math.isinf). -/
def Fl.isInfinite : Fl → Bool
  | .inf => true
  | .ninf => true
  | _ => false

/-- IEEE-style subtraction on modelled floats. -/
def Fl.sub : Fl → Fl → Fl
  | .nan, _ => .nan
  | _, .nan => .nan
  | .inf, .inf => .nan
  | .inf, _ => .inf
  | .ninf, .ninf => .nan
  | .ninf, _ => .ninf
  | .fin _, .inf => .ninf
  | .fin _, .ninf => .inf
  | .fin a, .fin b => .fin (a - b)

/-- IEEE-style addition on modelled floats. -/
def Fl.add : Fl → Fl → Fl
  | .nan, _ => .nan
  | _, .nan => .nan
  | .inf, .ninf => .nan
  | .inf, _ => .inf
  | .ninf, .inf => .nan
  | .ninf, _ => .ninf
  | .fin _, .inf => .inf
  | .fin _, .ninf => .ninf
  | .fin a, .fin b => .fin (a + b)

/-- IEEE-style multiplication on modelled floats. -/
def Fl.mul : Fl → Fl → Fl
  | .nan, _ => .nan
  | _, .nan => .nan
  | .inf, .inf => .inf
  | .inf, .ninf => .ninf
  | .ninf, .inf => .ninf
  | .ninf, .ninf => .inf
  | .inf, .fin b => if b = 0 then .nan else if 0 < b then .inf else .ninf
  | .fin a, .inf => if a = 0 then .nan else if 0 < a then .inf else .ninf
  | .ninf, .fin b => if b = 0 then .nan else if 0 < b then .ninf else .inf
  | .fin a, .ninf => if a = 0 then .nan else if 0 < a then .ninf else .inf
  | .fin a, .fin b => .fin (a * b)

/-- IEEE-style division on modelled floats (our single rational zero is
treated as the positive zero). -/
def Fl.div : Fl → Fl → Fl
  | .nan, _ => .nan
  | _, .nan => .nan
  | .inf, .inf => .nan
  | .inf, .ninf => .nan
  | .ninf, .inf => .nan
  | .ninf, .ninf => .nan
  | .inf, .fin b => if 0 ≤ b then .inf else .ninf
  | .ninf, .fin b => if 0 ≤ b then .ninf else .inf
  | .fin _, .inf => .fin 0
  | .fin _, .ninf => .fin 0
  | .fin a, .fin b =>
      if b = 0 then (if a = 0 then .nan else if 0 < a then .inf else .ninf)
      else .fin (a / b)

/-- Absolute value of a modelled float. -/
def Fl.abs : Fl → Fl
  | .nan => .nan
  | .inf => .inf
  | .ninf => .inf
  | .fin a => .fin |a|

/-- IEEE comparison: NaN is incomparable with everything. -/
def Fl.lt : Fl → Fl → Bool
  | .nan, _ => false
  | _, .nan => false
  | .ninf, .ninf => false
  | .ninf, _ => true
  | .inf, _ => false
  | .fin _, .ninf => false
  | .fin _, .inf => true
  | .fin a, .fin b => decide (a < b)

/-- Strictly-greater comparison, NaN incomparable. -/
def Fl.gt (a b : Fl) : Bool := Fl.lt b a

/-- NaN-skipping binary maximum, as used by pandas .max(axis=1):
a NaN operand is ignored; the maximum of two NaNs is NaN. -/
def maxSk (a b : Fl) : Fl :=
  if a.isNaN then b else if b.isNaN then a else if a.lt b then b else a

/-- One OHLC bar (the Open column is carried because build_history
drops rows whose Open is NaN before computing anything). -/
structure Bar where
  opn : Fl
  high : Fl
  low : Fl
  close : Fl
deriving DecidableEq

/-- Three-way trend label. -/
inductive Trend where
  | up : Trend
  | down : Trend
  | flat : Trend
deriving DecidableEq

/-- One True-Range row of the pandas frame built by atr14 in both
scripts: the NaN-skipping maximum of abs(high - low),
abs(high - prevClose) and abs(low - prevClose). -/
def trRow (b : Bar) (prevClose : Fl) : Fl :=
  maxSk ((b.high.sub b.low).abs) (maxSk ((b.high.sub prevClose).abs) ((b.low.sub prevClose).abs))

/-- The True-Range column, threading the shifted previous close
(the shift puts NaN at the first row, so there the two prev-close
columns are NaN and the skipping maximum returns abs(high - low)). -/
def trListAux (prevClose : Fl) : List Bar → List Fl
  | [] => []
  | b :: rest => trRow b prevClose :: trListAux b.close rest

/-- tr of both scripts: the row maxima over the whole bar frame. -/
def trList (bars : List Bar) : List Fl := trListAux Fl.nan bars

/-- pandas Series.rolling(w, min_periods=w).mean(): at index i the mean
of the trailing w-entry window, NaN while fewer than w entries exist or
when the window contains a NaN. -/
def rollingMean (w : ℕ) (tr : List Fl) : List Fl :=
  (List.range tr.length).map fun i =>
    if i + 1 < w then Fl.nan
    else
      let win := (tr.take (i + 1)).drop (i + 1 - w)
      if win.any Fl.isNaN then Fl.nan
      else (win.foldl Fl.add (Fl.fin 0)).div (Fl.fin (w : ℚ))

/-- atr14 of scripts/build_market.py: NaN on an empty frame, otherwise
the last entry of the rolling(14, min_periods=14) mean of the
True-Range column. -/
def atr14 (bars : List Bar) : Fl :=
  if bars.isEmpty then Fl.nan
  else ((rollingMean 14 (trList bars)).getLast?).getD Fl.nan

/-- Round-half-to-even on an exact rational (the rounding used by
Python round and numpy/pandas round). -/
def roundHalfEven (x : ℚ) : ℤ :=
  let n := ⌊x⌋
  let f := x - n
  if f < 1 / 2 then n else if 1 / 2 < f then n + 1 else if n % 2 = 0 then n else n + 1

/-- round(x, 2): round-half-to-even at two decimal places. -/
def round2 (x : ℚ) : ℚ := (roundHalfEven (x * 100) : ℚ) / 100

/-- Elementwise pandas round(2): finite values are rounded, NaN and the
infinities pass through. -/
def flRound2 : Fl → Fl
  | .fin q => .fin (round2 q)
  | x => x

/-- safe_round of scripts/build_market.py: None on None, NaN and the
infinities, otherwise round(x, 2). -/
def safe_round : Option Fl → Option ℚ
  | none => none
  | some .nan => none
  | some .inf => none
  | some .ninf => none
  | some (.fin q) => some (round2 q)

/-- The pips expression of the main loop of scripts/build_market.py:
atr / tick_size when tick_size is truthy (present and nonzero), the
ATR value is truthy (nonzero) and not NaN; otherwise None. -/
def pipsOf (atr : Fl) (tick : Option ℚ) : Option Fl :=
  match tick with
  | none => none
  | some t => if t ≠ 0 ∧ atr ≠ Fl.fin 0 ∧ ¬ atr.isNaN then some (atr.div (Fl.fin t)) else none

/-- Core of pct_and_trend, given the last and the second-to-last close:
the guard is pandas notna on each close plus prev != 0; the percent is
(last - prev) / abs(prev) * 100 and the band is plus-minus 0.05. -/
def pctCore (lastC prevC : Fl) : Option Fl × Trend :=
  if lastC.isNaN ∨ prevC.isNaN ∨ prevC = Fl.fin 0 then (none, Trend.flat)
  else
    let pct := ((lastC.sub prevC).div prevC.abs).mul (Fl.fin 100)
    (some pct,
      if pct.gt (Fl.fin 0.05) then Trend.up
      else if pct.lt (Fl.fin (-0.05)) then Trend.down else Trend.flat)

/-- pct_and_trend of scripts/build_market.py: (None, flat) on fewer
than two bars, otherwise pctCore on the last two closes. -/
def pct_and_trend (bars : List Bar) : Option Fl × Trend :=
  match bars.reverse with
  | b2 :: b1 :: _ => pctCore b2.close b1.close
  | _ => (none, Trend.flat)

/-- One per-symbol, per-interval record of the snapshot artifact. -/
structure SnapshotEntry where
  trend : Trend
  pips : Option ℚ
  usd : Option ℚ
  pct : Option ℚ
deriving DecidableEq

/-- The record the main loop of scripts/build_market.py assembles for
one symbol and one interval: trend and pct from pct_and_trend, pips
from the guarded division, usd literally None. -/
def mkEntry (df : List Bar) (tick : Option ℚ) : SnapshotEntry :=
  let atr := atr14 df
  let pt := pct_and_trend df
  { trend := pt.2, pips := safe_round (pipsOf atr tick), usd := none, pct := safe_round pt.1 }

/-- SYMBOL_MAP of scripts/build_market.py, in dict insertion order. -/
def SYMBOL_MAP : List (String × String) :=
  [ ("MES", "ES=F"), ("MNQ", "NQ=F"), ("MYM", "YM=F"), ("M2K", "RTY=F"),
    ("MGC", "GC=F"), ("SIL", "SI=F"), ("MHG", "HG=F"), ("MCL", "CL=F"), ("MNG", "NG=F"),
    ("ES", "ES=F"), ("NQ", "NQ=F"), ("YM", "YM=F"), ("RTY", "RTY=F"),
    ("GC", "GC=F"), ("SI", "SI=F"), ("HG", "HG=F"), ("CL", "CL=F"), ("NG", "NG=F"),
    ("RB", "RB=F"), ("HO", "HO=F"), ("PL", "PL=F"),
    ("ZT", "ZT=F"), ("ZF", "ZF=F"), ("ZN", "ZN=F"), ("ZB", "ZB=F"), ("UB", "UB=F"), ("TN", "TN=F"),
    ("ZC", "ZC=F"), ("ZW", "ZW=F"), ("ZS", "ZS=F"), ("ZM", "ZM=F"), ("ZL", "ZL=F"),
    ("6A", "6A=F"), ("6B", "6B=F"), ("6C", "6C=F"), ("6E", "6E=F"),
    ("6J", "6J=F"), ("6S", "6S=F"), ("6N", "6N=F"), ("6M", "6M=F") ]

/-- TICK_SIZE of scripts/build_market.py. -/
def TICK_SIZE : List (String × ℚ) :=
  [ ("ES", 0.25), ("MES", 0.25), ("NQ", 0.25), ("MNQ", 0.25), ("YM", 1.00), ("MYM", 1.00),
    ("RTY", 0.10), ("M2K", 0.10),
    ("GC", 0.10), ("MGC", 0.10), ("SI", 0.005), ("SIL", 0.005), ("HG", 0.0005), ("MHG", 0.0005),
    ("CL", 0.01), ("MCL", 0.01), ("NG", 0.001), ("MNG", 0.001), ("RB", 0.0001), ("HO", 0.0001),
    ("PL", 0.10),
    ("ZT", 0.0078125), ("ZF", 0.0078125), ("ZN", 0.015625),
    ("ZB", 0.03125), ("UB", 0.03125), ("TN", 0.015625),
    ("ZC", 0.25), ("ZW", 0.25), ("ZS", 0.25), ("ZM", 0.10), ("ZL", 0.01),
    ("6A", 0.0001), ("6B", 0.0001), ("6C", 0.00005), ("6E", 0.00005),
    ("6J", 0.0000005), ("6S", 0.0001), ("6N", 0.0001), ("6M", 0.0001) ]

/-- What the try/except around each fetch of both scripts leaves in the
frame: the adapter result on success, an empty frame on a raised
transient failure (build_market catches and substitutes an empty
DataFrame). -/
def fetchResult : Except Unit (List Bar) → List Bar
  | .ok bs => bs
  | .error _ => []

/-- The _meta record of both output artifacts. -/
structure Meta where
  updated_utc : String
  source : String
  atr_period : ℕ
deriving DecidableEq

/-- The snapshot Dataset: daily and hourly symbol maps plus _meta. -/
structure Dataset where
  daily : List (String × SnapshotEntry)
  hourly : List (String × SnapshotEntry)
  meta : Meta
deriving DecidableEq

/-- main of scripts/build_market.py as a function of the adapter
responses (keyed by provider ticker and interval) and the run
timestamp: for every registered symbol, fetch daily and hourly bars
(failure gives an empty frame) and assemble an entry per interval,
then attach _meta. -/
def buildMarket (resp : String → String → Except Unit (List Bar)) (now : String) : Dataset :=
  { daily := SYMBOL_MAP.map fun p =>
      (p.1, mkEntry (fetchResult (resp p.2 "1d")) (TICK_SIZE.lookup p.1)),
    hourly := SYMBOL_MAP.map fun p =>
      (p.1, mkEntry (fetchResult (resp p.2 "60m")) (TICK_SIZE.lookup p.1)),
    meta := { updated_utc := now, source := "Yahoo Finance via yfinance", atr_period := 14 } }

/-- A calendar date carried on a historical row. -/
structure Date where
  y : ℕ
  m : ℕ
  d : ℕ
deriving DecidableEq

/-- The decimal digit character of n mod 10. -/
def digitChar (n : ℕ) : Char := Char.ofNat (48 + n % 10)

/-- strftime of the date format used by build_history: a zero-padded
four-digit year, dash, two-digit month, dash, two-digit day (faithful
for years up to 9999). -/
def fmtDate (dt : Date) : String :=
  String.mk [digitChar (dt.y / 1000), digitChar (dt.y / 100), digitChar (dt.y / 10),
    digitChar dt.y, Char.ofNat 45, digitChar (dt.m / 10), digitChar dt.m, Char.ofNat 45,
    digitChar (dt.d / 10), digitChar dt.d]

/-- Chronological order on dates. -/
def dateLt (a b : Date) : Prop :=
  a.y * 10000 + a.m * 100 + a.d < b.y * 10000 + b.m * 100 + b.d

/-- A ten-character string of four digits, a dash, two digits, a dash
and two digits. -/
def isDateString (s : String) : Prop :=
  match s.data with
  | [a, b, c, d, h1, e, f, h2, g, i] =>
      a.isDigit ∧ b.isDigit ∧ c.isDigit ∧ d.isDigit ∧ h1 = Char.ofNat 45 ∧
      e.isDigit ∧ f.isDigit ∧ h2 = Char.ofNat 45 ∧ g.isDigit ∧ i.isDigit
  | _ => False

/-- YF_MAP of scripts/build_history.py, in dict insertion order. -/
def YF_MAP : List (String × String) :=
  [ ("MES", "ES=F"), ("MNQ", "NQ=F"), ("MYM", "YM=F"), ("M2K", "RTY=F"),
    ("MGC", "GC=F"), ("MCL", "CL=F"), ("MHG", "HG=F"), ("SIL", "SI=F"), ("MNG", "NG=F"),
    ("ES", "ES=F"), ("NQ", "NQ=F"), ("YM", "YM=F"), ("RTY", "RTY=F"),
    ("GC", "GC=F"), ("SI", "SI=F"), ("HG", "HG=F"), ("CL", "CL=F"), ("NG", "NG=F"),
    ("RB", "RB=F"), ("HO", "HO=F"), ("PL", "PL=F"),
    ("ZT", "ZT=F"), ("ZF", "ZF=F"), ("ZN", "ZN=F"), ("ZB", "ZB=F"), ("UB", "UB=F"), ("TN", "TN=F"),
    ("ZC", "ZC=F"), ("ZW", "ZW=F"), ("ZS", "ZS=F"), ("ZM", "ZM=F"), ("ZL", "ZL=F"),
    ("6A", "6A=F"), ("6B", "6B=F"), ("6C", "6C=F"), ("6E", "6E=F"),
    ("6J", "6J=F"), ("6S", "6S=F"), ("6N", "6N=F"), ("6M", "6M=F") ]

/-- The first TICK table of scripts/build_history.py (lines 31-51),
immediately shadowed by the second assignment to the same name. -/
def TICK_first : List (String × ℚ) :=
  [ ("ES", 0.25), ("MES", 0.25), ("NQ", 0.25), ("MNQ", 0.25), ("YM", 1.0), ("MYM", 1.0),
    ("RTY", 0.10), ("M2K", 0.10),
    ("GC", 0.10), ("MGC", 0.10), ("SI", 0.005), ("SIL", 0.005), ("HG", 0.0005), ("MHG", 0.0005),
    ("CL", 0.01), ("MCL", 0.01), ("NG", 0.001), ("MNG", 0.001),
    ("RB", 0.0001), ("HO", 0.0001), ("PL", 0.1),
    ("ZT", 0.0078125), ("ZF", 0.0078125), ("ZN", 0.015625), ("TN", 0.015625),
    ("ZB", 0.03125), ("UB", 0.03125),
    ("ZC", 0.0025), ("ZW", 0.0025), ("ZS", 0.0025), ("ZM", 0.1), ("ZL", 0.0001),
    ("6A", 0.0001), ("6B", 0.0001), ("6C", 0.00005), ("6E", 0.00005),
    ("6J", 0.0000005), ("6S", 0.0001), ("6N", 0.0001), ("6M", 0.000005) ]

/-- The effective TICK table of scripts/build_history.py: the second
assignment (lines 55-65) rebinds the name, so only these entries are
visible to build_one. -/
def TICK : List (String × ℚ) :=
  [ ("ES", 0.25), ("MES", 0.25),
    ("NQ", 0.25), ("MNQ", 0.25),
    ("YM", 1.0), ("MYM", 1.0),
    ("RTY", 0.10), ("M2K", 0.10),
    ("GC", 0.10), ("MGC", 0.10),
    ("SI", 0.005), ("SIL", 0.005),
    ("HG", 0.0005), ("MHG", 0.0005),
    ("CL", 0.01), ("MCL", 0.01),
    ("NG", 0.001), ("MNG", 0.001) ]

/-- The trailing n elements of a list (pandas tail). -/
def lastN (n : ℕ) (l : List α) : List α := l.drop (l.length - n)

/-- Tick conversion plus dropna of build_one: with a truthy tick size
every ATR point is divided by it and rounded to two decimals, then NaN
points are dropped; otherwise the raw points are kept and NaN points
are dropped. -/
def convertVals (pairs : List (Date × Fl)) (tick : Option ℚ) : List (Date × Fl) :=
  match tick with
  | some t =>
      if t ≠ 0 then
        ((pairs.map fun p => (p.1, flRound2 (p.2.div (Fl.fin t)))).filter fun p => !p.2.isNaN)
      else pairs.filter fun p => !p.2.isNaN
  | none => pairs.filter fun p => !p.2.isNaN

/-- build_one of scripts/build_history.py: None on an empty frame,
otherwise dropna the rows, compute the full rolling ATR series, convert
to ticks when the symbol has a tick size, drop NaN points, keep the
trailing 300 and render each date. -/
def buildOne (rows : List (Date × Bar)) (tick : Option ℚ) : Option (List (String × Fl)) :=
  if rows.isEmpty then none
  else
    let rows2 := rows.filter fun r =>
      !(r.2.opn.isNaN || r.2.high.isNaN || r.2.low.isNaN || r.2.close.isNaN)
    let atrs := rollingMean 14 (trList (rows2.map Prod.snd))
    let pairs := (rows2.map Prod.fst).zip atrs
    some ((lastN 300 (convertVals pairs tick)).map fun p => (fmtDate p.1, p.2))

/-- main of scripts/build_history.py as a function of the adapter
responses: per symbol, a raised error skips the symbol, and a series is
kept only when build_one produced one of at least two points. -/
def buildHistory (resp : String → Except Unit (List (Date × Bar))) :
    List (String × List (String × Fl)) :=
  YF_MAP.filterMap fun p =>
    match resp p.2 with
    | .error _ => none
    | .ok rows =>
        match buildOne rows (TICK.lookup p.1) with
        | none => none
        | some s => if 2 ≤ s.length then some (p.1, s) else none

/-- A bar given by exact rational (high, low, close) components. -/
def ratBar (r : ℚ × ℚ × ℚ) : Bar :=
  { opn := Fl.fin r.2.2, high := Fl.fin r.1, low := Fl.fin r.2.1, close := Fl.fin r.2.2 }

/-- A finite-valued bar sequence from rational triples. -/
def ratBars (rs : List (ℚ × ℚ × ℚ)) : List Bar := rs.map ratBar

/-- Modelled from the spec, section 4.1: the True-Range value of one
bar against the previous close, max of high - low, abs(high - prev)
and abs(low - prev). -/
def specTRRow (r : ℚ × ℚ × ℚ) (prevClose : ℚ) : ℚ :=
  max (r.1 - r.2.1) (max |r.1 - prevClose| |r.2.1 - prevClose|)

/-- Modelled from the spec, section 4.1: True-Range rows for every bar
after the first, threading the previous close. -/
def specTRAux (prevClose : ℚ) : List (ℚ × ℚ × ℚ) → List ℚ
  | [] => []
  | r :: rest => specTRRow r prevClose :: specTRAux r.2.2 rest

/-- Modelled from the spec, section 4.1: the True-Range sequence of a
bar sequence, one value per index in [1, N-1], none for index 0. -/
def specTR : List (ℚ × ℚ × ℚ) → List ℚ
  | [] => []
  | r :: rest => specTRAux r.2.2 rest

/-- Modelled from the spec, section 4.2: the recursion of the
Wilder/EMA variant after the seed. -/
def wilderAux (period : ℚ) (a : ℚ) : List ℚ → List ℚ
  | [] => []
  | t :: rest =>
      let a2 := a + (t - a) / period
      a2 :: wilderAux period a2 rest

/-- Modelled from the spec, section 4.2: the Wilder/EMA ATR variant,
seeded with the first True-Range sample, one value per sample. -/
def wilderATR (period : ℚ) : List ℚ → List ℚ
  | [] => []
  | t :: rest => t :: wilderAux period t rest

/-- Fifteen bars whose spec True-Range samples alternate 4 and 2. -/
def rbs15 : List (ℚ × ℚ × ℚ) :=
  [ (10, 8, 9),
    (13, 9, 9), (11, 9, 9), (13, 9, 9), (11, 9, 9), (13, 9, 9), (11, 9, 9), (13, 9, 9),
    (11, 9, 9), (13, 9, 9), (11, 9, 9), (13, 9, 9), (11, 9, 9), (13, 9, 9), (11, 9, 9) ]

/-- The symbols present in both TICK tables of build_history and in
TICK_SIZE of build_market, but absent from the second, shadowing TICK
table: treasuries, grains, FX futures, RB, HO and PL. -/
def shadowedSyms : List String :=
  [ "ZT", "ZF", "ZN", "ZB", "UB", "TN",
    "ZC", "ZW", "ZS", "ZM", "ZL",
    "6A", "6B", "6C", "6E", "6J", "6S", "6N", "6M",
    "RB", "HO", "PL" ]

/-- A constant-price bar used by concrete evaluations. -/
def flatBar : Bar :=
  { opn := Fl.fin 5, high := Fl.fin 5, low := Fl.fin 5, close := Fl.fin 5 }

theorem Fl.isNaN_fin (q : ℚ) : (Fl.fin q).isNaN = false := rfl

theorem Fl.sub_fin (a b : ℚ) : (Fl.fin a).sub (Fl.fin b) = Fl.fin (a - b) := rfl

theorem Fl.abs_fin (a : ℚ) : (Fl.fin a).abs = Fl.fin |a| := rfl

theorem Fl.mul_fin (a b : ℚ) : (Fl.fin a).mul (Fl.fin b) = Fl.fin (a * b) := rfl

theorem Fl.add_fin (a b : ℚ) : (Fl.fin a).add (Fl.fin b) = Fl.fin (a + b) := rfl

theorem Fl.div_fin (a b : ℚ) (hb : b ≠ 0) : (Fl.fin a).div (Fl.fin b) = Fl.fin (a / b) := by
  simp [Fl.div, hb]

theorem maxSk_fin (a b : ℚ) : maxSk (Fl.fin a) (Fl.fin b) = Fl.fin (max a b) := by
  by_cases h : a < b
  · simp [maxSk, Fl.isNaN, Fl.lt, h, max_eq_right h.le]
  · simp [maxSk, Fl.isNaN, Fl.lt, h, max_eq_left (not_lt.mp h)]

theorem trRow_nan (b : Bar) : trRow b Fl.nan = (b.high.sub b.low).abs := by
  unfold trRow
  have h1 : (b.high.sub Fl.nan).abs = Fl.nan := by cases b.high <;> rfl
  have h2 : (b.low.sub Fl.nan).abs = Fl.nan := by cases b.low <;> rfl
  rw [h1, h2]
  have h3 : maxSk Fl.nan Fl.nan = Fl.nan := rfl
  rw [h3]
  cases hx : (b.high.sub b.low).abs <;> simp [maxSk, Fl.isNaN]

theorem trRow_ratBar (r : ℚ × ℚ × ℚ) (pc : ℚ) :
    trRow (ratBar r) (Fl.fin pc) = Fl.fin (max |r.1 - r.2.1| (max |r.1 - pc| |r.2.1 - pc|)) := by
  simp [trRow, ratBar, Fl.sub_fin, Fl.abs_fin, maxSk_fin]

theorem trListAux_ratBars (rs : List (ℚ × ℚ × ℚ)) (pc : ℚ)
    (hv : ∀ r ∈ rs, r.2.1 ≤ r.1) :
    trListAux (Fl.fin pc) (ratBars rs) = (specTRAux pc rs).map Fl.fin := by
  induction rs generalizing pc with
  | nil => rfl
  | cons r rest ih =>
      have hr : r.2.1 ≤ r.1 := hv r (List.mem_cons_self r rest)
      have habs : |r.1 - r.2.1| = r.1 - r.2.1 := abs_of_nonneg (by linarith)
      simp only [ratBars, List.map_cons, trListAux, specTRAux]
      rw [trRow_ratBar, habs]
      have hclose : (ratBar r).close = Fl.fin r.2.2 := rfl
      rw [hclose]
      refine congrArg₂ List.cons rfl ?_
      exact ih r.2.2 (fun x hx => hv x (List.mem_cons_of_mem r hx))

theorem length_trListAux (pc : Fl) (bs : List Bar) : (trListAux pc bs).length = bs.length := by
  induction bs generalizing pc with
  | nil => rfl
  | cons b rest ih => simp [trListAux, ih]

theorem length_trList (bs : List Bar) : (trList bs).length = bs.length :=
  length_trListAux _ _

theorem length_rollingMean (w : ℕ) (tr : List Fl) : (rollingMean w tr).length = tr.length := by
  simp [rollingMean]

theorem length_specTRAux (pc : ℚ) (rs : List (ℚ × ℚ × ℚ)) :
    (specTRAux pc rs).length = rs.length := by
  induction rs generalizing pc with
  | nil => rfl
  | cons r rest ih => simp [specTRAux, ih]

theorem specTRAux_nonneg (pc : ℚ) (rs : List (ℚ × ℚ × ℚ)) :
    ∀ x ∈ specTRAux pc rs, 0 ≤ x := by
  induction rs generalizing pc with
  | nil => simp [specTRAux]
  | cons r rest ih =>
      intro x hx
      rcases List.mem_cons.mp hx with h | h
      · subst h
        exact le_trans (abs_nonneg (r.1 - pc)) ((le_max_left _ _).trans (le_max_right _ _))
      · exact ih r.2.2 x h

theorem foldl_add_map_fin (l : List ℚ) (a : ℚ) :
    (l.map Fl.fin).foldl Fl.add (Fl.fin a) = Fl.fin (a + l.sum) := by
  induction l generalizing a with
  | nil => simp
  | cons x xs ih => simp [List.foldl_cons, Fl.add_fin, ih, add_assoc]

theorem any_isNaN_map_fin (l : List ℚ) : (l.map Fl.fin).any Fl.isNaN = false := by
  induction l with
  | nil => rfl
  | cons x xs ih => simp [Fl.isNaN, ih]

theorem trList_ratBars (r : ℚ × ℚ × ℚ) (rest : List (ℚ × ℚ × ℚ))
    (hv : ∀ x ∈ rest, x.2.1 ≤ x.1) :
    trList (ratBars (r :: rest)) = Fl.fin |r.1 - r.2.1| :: (specTR (r :: rest)).map Fl.fin := by
  simp only [trList, ratBars, List.map_cons, trListAux, specTR]
  rw [trRow_nan]
  have hhead : ((ratBar r).high.sub (ratBar r).low).abs = Fl.fin |r.1 - r.2.1| := rfl
  rw [hhead]
  have hclose : (ratBar r).close = Fl.fin r.2.2 := rfl
  rw [hclose]
  exact congrArg₂ List.cons rfl (trListAux_ratBars rest r.2.2 hv)

theorem rollingMean_getLast (w : ℕ) (tr : List Fl) (n : ℕ) (h : tr.length = n + 1) :
    (rollingMean w tr).getLast? = some (if n + 1 < w then Fl.nan
      else if ((tr.take (n + 1)).drop (n + 1 - w)).any Fl.isNaN then Fl.nan
      else (((tr.take (n + 1)).drop (n + 1 - w)).foldl Fl.add (Fl.fin 0)).div
        (Fl.fin (w : ℚ))) := by
  unfold rollingMean
  rw [h, List.range_succ, List.map_append]
  simp [List.getLast?_concat]

theorem lookup_map_assoc {β : Type} (l : List (String × String)) (f : String × String → β)
    (sym yahoo : String) (h : l.lookup sym = some yahoo) :
    (l.map fun p => (p.1, f p)).lookup sym = some (f (sym, yahoo)) := by
  induction l with
  | nil => simp [List.lookup] at h
  | cons a l ih =>
      rcases a with ⟨k, v⟩
      by_cases hk : sym = k
      · subst hk
        simp only [List.lookup, beq_self_eq_true] at h ⊢
        simp only [Option.some.injEq] at h
        subst h
        rfl
      · have hk2 : (sym == k) = false := beq_eq_false_iff_ne.mpr hk
        simp only [List.lookup, List.map_cons, hk2] at h ⊢
        exact ih h

theorem rollingMean_getLast2 (w : ℕ) (tr : List Fl) (h : tr ≠ []) :
    (rollingMean w tr).getLast? = some (if tr.length < w then Fl.nan
      else if (tr.drop (tr.length - w)).any Fl.isNaN then Fl.nan
      else ((tr.drop (tr.length - w)).foldl Fl.add (Fl.fin 0)).div (Fl.fin (w : ℚ))) := by
  have hpos : 0 < tr.length := List.length_pos.mpr h
  have h1 := rollingMean_getLast w tr (tr.length - 1) (by omega)
  rw [show tr.length - 1 + 1 = tr.length from by omega, List.take_length] at h1
  exact h1

/-- Claim C1 counterexample: on fifteen concrete bars whose True-Range
samples alternate 4 and 2, the snapshot value computed by atr14 of
scripts/build_market.py is 3 (the plain mean of the last fourteen
samples), while the Wilder/EMA recursion of spec section 4.2 ends at a
different value, so the snapshot value is not the Wilder variant. -/
theorem C1_cex :
    atr14 (ratBars rbs15) = Fl.fin 3 ∧
    specTR rbs15 = [4, 2, 4, 2, 4, 2, 4, 2, 4, 2, 4, 2, 4, 2] ∧
    ((wilderATR 14 (specTR rbs15)).getLast?).getD 0 ≠ (3 : ℚ) := by
  refine ⟨?_, ?_, ?_⟩ <;> with_unfolding_all decide

/-- Claim C1 as amended: in snapshot mode the single most-recent ATR
value is the simple rolling-mean variant, not Wilder: for every bar
sequence of at least fifteen bars (high at or above low), atr14 equals
the arithmetic mean of the fourteen most recent True-Range samples
TR of spec section 4.1. -/
theorem C1_thm (rbs : List (ℚ × ℚ × ℚ)) (hlen : 15 ≤ rbs.length)
    (hv : ∀ r ∈ rbs, r.2.1 ≤ r.1) :
    atr14 (ratBars rbs) =
      Fl.fin (((specTR rbs).drop ((specTR rbs).length - 14)).sum / 14) := by
  rcases rbs with _ | ⟨r, rest⟩
  · simp at hlen
  have hvr : ∀ x ∈ rest, x.2.1 ≤ x.1 := fun x hx => hv x (List.mem_cons_of_mem r hx)
  have htr := trList_ratBars r rest hvr
  have hlenrest : 14 ≤ rest.length := by
    simp only [List.length_cons] at hlen; omega
  have hspeclen : (specTR (r :: rest)).length = rest.length := by
    simp [specTR, length_specTRAux]
  have hlentr : (trList (ratBars (r :: rest))).length = rest.length + 1 := by
    rw [htr]; simp [hspeclen]
  have hne : trList (ratBars (r :: rest)) ≠ [] := by
    intro hc
    rw [hc] at hlentr
    simp at hlentr
  have hgl := rollingMean_getLast2 14 _ hne
  rw [hlentr, htr] at hgl
  rw [show rest.length + 1 - 14 = (rest.length - 14) + 1 from by omega,
    List.drop_succ_cons, ← List.map_drop, any_isNaN_map_fin, foldl_add_map_fin,
    if_neg (by omega : ¬ (rest.length + 1 < 14))] at hgl
  simp only [Bool.false_eq_true, if_false] at hgl
  rw [Fl.div_fin _ _ (by norm_num)] at hgl
  have hstart : atr14 (ratBars (r :: rest)) =
      ((rollingMean 14 (trList (ratBars (r :: rest)))).getLast?).getD Fl.nan := by
    simp [atr14, ratBars]
  rw [hstart, htr] at *
  rw [hgl, Option.getD_some, hspeclen]
  norm_num

theorem C1_wit :
    15 ≤ rbs15.length ∧ (∀ r ∈ rbs15, r.2.1 ≤ r.1) ∧
    atr14 (ratBars rbs15) =
      Fl.fin (((specTR rbs15).drop ((specTR rbs15).length - 14)).sum / 14) :=
  ⟨by decide, by with_unfolding_all decide,
    C1_thm rbs15 (by decide) (by with_unfolding_all decide)⟩

/-- Claim C2 counterexample: for the two concrete bars
(h 10, l 8, c 9), (h 11, l 9, c 10) the True-Range sequence both
scripts aggregate has length 2, not N - 1 = 1: index 0 is not excluded
but defaulted to high - low = 2 by the NaN-skipping row maximum. -/
theorem C2_cex :
    trList (ratBars [((10 : ℚ), (8 : ℚ), (9 : ℚ)), (11, 9, 10)]) = [Fl.fin 2, Fl.fin 2] ∧
    (trList (ratBars [((10 : ℚ), (8 : ℚ), (9 : ℚ)), (11, 9, 10)])).length ≠ 2 - 1 := by
  constructor <;> with_unfolding_all decide

/-- Claim C2 as amended: the True-Range sequence used for downstream
aggregation has length N (not N - 1): index 0 is defaulted to
high[0] - low[0], each later value equals
max(high - low, abs(high - prevClose), abs(low - prevClose)), and every
value is a nonnegative finite number. -/
theorem C2_thm (r : ℚ × ℚ × ℚ) (rest : List (ℚ × ℚ × ℚ))
    (hv : ∀ x ∈ r :: rest, x.2.1 ≤ x.1) :
    (trList (ratBars (r :: rest))).length = (r :: rest).length ∧
    trList (ratBars (r :: rest)) = Fl.fin (r.1 - r.2.1) :: (specTR (r :: rest)).map Fl.fin ∧
    (∀ x ∈ trList (ratBars (r :: rest)), ∃ q, x = Fl.fin q ∧ 0 ≤ q) := by
  have hvr : ∀ x ∈ rest, x.2.1 ≤ x.1 := fun x hx => hv x (List.mem_cons_of_mem r hx)
  have htr := trList_ratBars r rest hvr
  have hr : r.2.1 ≤ r.1 := hv r (List.mem_cons_self r rest)
  have habs : |r.1 - r.2.1| = r.1 - r.2.1 := abs_of_nonneg (by linarith)
  refine ⟨?_, ?_, ?_⟩
  · rw [htr]
    simp [specTR, length_specTRAux]
  · rw [htr, habs]
  · rw [htr]
    intro x hx
    rcases List.mem_cons.mp hx with h | h
    · exact ⟨|r.1 - r.2.1|, h, abs_nonneg _⟩
    · obtain ⟨q, hq, rfl⟩ := List.mem_map.mp h
      exact ⟨q, rfl, specTRAux_nonneg r.2.2 rest q hq⟩

theorem C2_wit :
    (∀ x ∈ [((10 : ℚ), (8 : ℚ), (9 : ℚ)), (11, 9, 10)], x.2.1 ≤ x.1) ∧
    (trList (ratBars [((10 : ℚ), (8 : ℚ), (9 : ℚ)), (11, 9, 10)])).length =
      ([((10 : ℚ), (8 : ℚ), (9 : ℚ)), (11, 9, 10)] : List (ℚ × ℚ × ℚ)).length ∧
    trList (ratBars [((10 : ℚ), (8 : ℚ), (9 : ℚ)), (11, 9, 10)]) =
      Fl.fin (10 - 8) :: (specTR [((10 : ℚ), (8 : ℚ), (9 : ℚ)), (11, 9, 10)]).map Fl.fin ∧
    (∀ x ∈ trList (ratBars [((10 : ℚ), (8 : ℚ), (9 : ℚ)), (11, 9, 10)]),
      ∃ q, x = Fl.fin q ∧ 0 ≤ q) :=
  ⟨by with_unfolding_all decide,
    C2_thm ((10 : ℚ), (8 : ℚ), (9 : ℚ)) [(11, 9, 10)] (by with_unfolding_all decide)⟩

theorem pipsOf_nan (tick : Option ℚ) : pipsOf Fl.nan tick = none := by
  cases tick with
  | none => rfl
  | some t => simp [pipsOf, Fl.isNaN]

theorem mkEntry_nil (tick : Option ℚ) :
    mkEntry [] tick = { trend := Trend.flat, pips := none, usd := none, pct := none } := by
  have h1 : atr14 [] = Fl.nan := rfl
  have h2 : pct_and_trend [] = (none, Trend.flat) := rfl
  simp [mkEntry, h1, h2, pipsOf_nan, safe_round]

/-- Claim C3 counterexample: with the adapter returning an empty bar
sequence for every ticker, the daily snapshot map still contains the
key ES, bound to a placeholder entry with trend flat and null pips,
usd and pct, not an absent key. -/
theorem C3_cex :
    ((buildMarket (fun _ _ => Except.ok []) "t").daily.lookup "ES") =
      some { trend := Trend.flat, pips := none, usd := none, pct := none } := by
  with_unfolding_all decide

/-- Claim C3 as amended: in snapshot mode, a symbol whose daily fetch
fails or returns no bars is still present in the daily map, bound to
the placeholder entry with trend flat and null pips, usd and pct; the
run continues, every registered symbol keeping its key. -/
theorem C3_thm (resp : String → String → Except Unit (List Bar)) (now sym yahoo : String)
    (hlk : SYMBOL_MAP.lookup sym = some yahoo)
    (hempty : fetchResult (resp yahoo "1d") = []) :
    (buildMarket resp now).daily.lookup sym =
      some { trend := Trend.flat, pips := none, usd := none, pct := none } ∧
    (buildMarket resp now).daily.map Prod.fst = SYMBOL_MAP.map Prod.fst := by
  constructor
  · have hmap := lookup_map_assoc SYMBOL_MAP
      (fun p => mkEntry (fetchResult (resp p.2 "1d")) (TICK_SIZE.lookup p.1)) sym yahoo hlk
    have hdaily : (buildMarket resp now).daily = SYMBOL_MAP.map
        (fun p => (p.1, mkEntry (fetchResult (resp p.2 "1d")) (TICK_SIZE.lookup p.1))) := rfl
    rw [hdaily, hmap]
    simp only [hempty, mkEntry_nil]
  · simp [buildMarket, List.map_map, Function.comp]

theorem C3_wit :
    SYMBOL_MAP.lookup "ES" = some "ES=F" ∧
    fetchResult (Except.ok ([] : List Bar)) = [] ∧
    ((buildMarket (fun _ _ => Except.ok []) "now").daily.lookup "ES" =
        some { trend := Trend.flat, pips := none, usd := none, pct := none } ∧
      (buildMarket (fun _ _ => Except.ok []) "now").daily.map Prod.fst =
        SYMBOL_MAP.map Prod.fst) :=
  ⟨by decide, rfl, C3_thm (fun _ _ => Except.ok []) "now" "ES" "ES=F" (by decide) rfl⟩

/-- Claim C4 counterexample: fourteen constant-price bars give an ATR
of exactly 0; the tick size 1/4 is positive and finite, the claim
demands round(0 / (1/4), 2) = 0, but the snapshot reports null because
the truthiness guard of the pips expression drops a zero ATR. -/
theorem C4_cex :
    atr14 (List.replicate 14 flatBar) = Fl.fin 0 ∧
    safe_round (pipsOf (atr14 (List.replicate 14 flatBar)) (some (1 / 4))) = none ∧
    round2 ((0 : ℚ) / (1 / 4)) = 0 := by
  refine ⟨?_, ?_, ?_⟩ <;> with_unfolding_all decide

/-- Claim C4 as amended: with a nonzero tick size and a nonzero,
non-NaN ATR the snapshot reports round(atr / tickSize, 2); a zero ATR
makes the snapshot report null (the historical builder keeps it as 0);
an absent or zero tick size makes the snapshot report null while the
historical builder passes the raw value through; division by zero
never occurs because both zero guards short-circuit. -/
theorem C4_thm :
    (∀ q t : ℚ, t ≠ 0 → q ≠ 0 →
      safe_round (pipsOf (Fl.fin q) (some t)) = some (round2 (q / t))) ∧
    (∀ t : ℚ, safe_round (pipsOf (Fl.fin 0) (some t)) = none) ∧
    (∀ a : Fl, pipsOf a none = none ∧ pipsOf a (some 0) = none) ∧
    (∀ (d : Date) (q t : ℚ), t ≠ 0 →
      convertVals [(d, Fl.fin q)] (some t) = [(d, Fl.fin (round2 (q / t)))]) ∧
    (∀ (d : Date) (q : ℚ), convertVals [(d, Fl.fin q)] none = [(d, Fl.fin q)]) := by
  refine ⟨?_, ?_, ?_, ?_, ?_⟩
  · intro q t ht hq
    simp [pipsOf, ht, hq, Fl.isNaN, Fl.div_fin q t ht, safe_round]
  · intro t
    simp [pipsOf, Fl.isNaN, safe_round]
  · intro a
    exact ⟨rfl, by simp [pipsOf]⟩
  · intro d q t ht
    simp [convertVals, ht, flRound2, Fl.div_fin q t ht, Fl.isNaN]
  · intro d q
    simp [convertVals, Fl.isNaN]

theorem C4_wit :
    safe_round (pipsOf (Fl.fin 1) (some (1 / 4))) = some (round2 (1 / (1 / 4))) ∧
    convertVals [({ y := 2024, m := 1, d := 2 }, Fl.fin 1)] (some (1 / 4)) =
      [({ y := 2024, m := 1, d := 2 }, Fl.fin (round2 (1 / (1 / 4))))] :=
  ⟨C4_thm.1 1 (1 / 4) (by norm_num) (by norm_num),
    C4_thm.2.2.2.1 { y := 2024, m := 1, d := 2 } 1 (1 / 4) (by norm_num)⟩

theorem pct_and_trend_append (front : List Bar) (b1 b2 : Bar) :
    pct_and_trend (front ++ [b1, b2]) = pctCore b2.close b1.close := by
  simp [pct_and_trend, List.reverse_append]

theorem pct_and_trend_short (bars : List Bar) (h : bars.length < 2) :
    pct_and_trend bars = (none, Trend.flat) := by
  rcases bars with _ | ⟨a, _ | ⟨b, rest⟩⟩
  · rfl
  · rfl
  · exfalso
    simp only [List.length_cons] at h
    omega

/-- Claim C5 counterexample: a last close of positive infinity is
non-finite, yet pct_and_trend does not fail closed to (null, flat): the
notna guard only filters NaN, so it returns percent infinity with
trend up. -/
theorem C5_cex :
    pct_and_trend
        [flatBar, { opn := Fl.fin 1, high := Fl.fin 1, low := Fl.fin 1, close := Fl.inf }] =
      (some Fl.inf, Trend.up) ∧
    (some Fl.inf, Trend.up) ≠ ((none : Option Fl), Trend.flat) := by
  constructor <;> with_unfolding_all decide

/-- Claim C5 as amended: the trend classifier returns flat with null
percent when fewer than two bars exist, when either of the last two
closes is NaN (not any non-finite value), or when the previous close
is zero; otherwise, for finite closes, pct = (last - prev)/abs(prev)*100
with trend up exactly when pct exceeds 0.05, down exactly when pct is
below -0.05, and flat otherwise, so pct = 0.05 exactly gives flat. -/
theorem C5_thm :
    (∀ bars : List Bar, bars.length < 2 → pct_and_trend bars = (none, Trend.flat)) ∧
    (∀ (front : List Bar) (b1 b2 : Bar),
      b2.close.isNaN ∨ b1.close.isNaN ∨ b1.close = Fl.fin 0 →
      pct_and_trend (front ++ [b1, b2]) = (none, Trend.flat)) ∧
    (∀ (front : List Bar) (b1 b2 : Bar) (p q : ℚ),
      b1.close = Fl.fin p → b2.close = Fl.fin q → p ≠ 0 →
      pct_and_trend (front ++ [b1, b2]) =
        (some (Fl.fin ((q - p) / |p| * 100)),
          if (0.05 : ℚ) < (q - p) / |p| * 100 then Trend.up
          else if (q - p) / |p| * 100 < -0.05 then Trend.down else Trend.flat)) := by
  refine ⟨pct_and_trend_short, ?_, ?_⟩
  · intro front b1 b2 h
    rw [pct_and_trend_append]
    simp only [pctCore]
    rw [if_pos h]
  · intro front b1 b2 p q h1 h2 hp
    rw [pct_and_trend_append, h1, h2]
    simp only [pctCore, Fl.isNaN, Fl.sub_fin, Fl.abs_fin,
      Fl.div_fin _ _ (abs_ne_zero.mpr hp), Fl.mul_fin]
    rw [if_neg (by simp [hp])]
    simp [Fl.gt, Fl.lt]

theorem C5_wit :
    pct_and_trend
        ([] ++ [flatBar, { opn := Fl.fin 6, high := Fl.fin 6, low := Fl.fin 6, close := Fl.fin 6 }]) =
      (some (Fl.fin ((6 - 5) / |(5 : ℚ)| * 100)),
        if (0.05 : ℚ) < (6 - 5) / |(5 : ℚ)| * 100 then Trend.up
        else if (6 - 5) / |(5 : ℚ)| * 100 < -0.05 then Trend.down else Trend.flat) :=
  C5_thm.2.2 [] flatBar
    { opn := Fl.fin 6, high := Fl.fin 6, low := Fl.fin 6, close := Fl.fin 6 }
    5 6 rfl rfl (by norm_num)

theorem digitChar_isDigit (n : ℕ) : (digitChar n).isDigit = true := by
  have h : n % 10 < 10 := Nat.mod_lt _ (by norm_num)
  unfold digitChar
  revert h
  generalize n % 10 = k
  intro hk
  interval_cases k <;> decide

theorem fmtDate_isDateString (dt : Date) : isDateString (fmtDate dt) :=
  ⟨digitChar_isDigit _, digitChar_isDigit _, digitChar_isDigit _, digitChar_isDigit _, rfl,
    digitChar_isDigit _, digitChar_isDigit _, rfl, digitChar_isDigit _, digitChar_isDigit _⟩

theorem convertVals_fst_sublist (pairs : List (Date × Fl)) (tick : Option ℚ) :
    ((convertVals pairs tick).map Prod.fst).Sublist (pairs.map Prod.fst) := by
  have hfil : ∀ (l : List (Date × Fl)),
      ((l.filter fun p => !p.2.isNaN).map Prod.fst).Sublist (l.map Prod.fst) :=
    fun l => (List.filter_sublist l).map Prod.fst
  cases tick with
  | none => exact hfil pairs
  | some t =>
      by_cases ht : t ≠ 0
      · simp only [convertVals]
        rw [if_pos ht]
        have h1 := (@List.filter_sublist _ (fun p => !p.2.isNaN)
          (pairs.map fun p => (p.1, flRound2 (p.2.div (Fl.fin t))))).map Prod.fst
        rw [List.map_map] at h1
        have h2 : List.map (Prod.fst ∘ fun p => (p.1, flRound2 (p.2.div (Fl.fin t)))) pairs
            = List.map Prod.fst pairs := by
          simp [Function.comp]
        rw [h2] at h1
        exact h1
      · simp only [convertVals]
        rw [if_neg ht]
        exact hfil pairs

/-- Claim C6, confirmed: in historical mode every emitted series is the
unit-converted ATR sequence truncated to at most the trailing 300
points (within the stated 300 to 365 bound); its dates are a
subsequence of the input dates rendered as YYYY-MM-DD strings, so
chronological ascending order is preserved; and every series kept by
the output mapping has at least 2 points (shorter ones are omitted). -/
theorem C6_thm :
    (∀ (rows : List (Date × Bar)) (tick : Option ℚ) (s : List (String × Fl)),
      buildOne rows tick = some s →
      s.length ≤ 300 ∧
      ∃ dts : List Date, s.map Prod.fst = dts.map fmtDate ∧
        dts.Sublist (rows.map Prod.fst) ∧
        ((rows.map Prod.fst).Pairwise dateLt → dts.Pairwise dateLt) ∧
        (∀ e ∈ s, isDateString e.1)) ∧
    (∀ (resp : String → Except Unit (List (Date × Bar))) (sym : String)
      (ser : List (String × Fl)), (sym, ser) ∈ buildHistory resp →
      2 ≤ ser.length ∧ ser.length ≤ 300) := by
  have hpart1 : ∀ (rows : List (Date × Bar)) (tick : Option ℚ) (s : List (String × Fl)),
      buildOne rows tick = some s →
      s.length ≤ 300 ∧
      ∃ dts : List Date, s.map Prod.fst = dts.map fmtDate ∧
        dts.Sublist (rows.map Prod.fst) ∧
        ((rows.map Prod.fst).Pairwise dateLt → dts.Pairwise dateLt) ∧
        (∀ e ∈ s, isDateString e.1) := by
    intro rows tick s hb
    unfold buildOne at hb
    by_cases hemp : rows.isEmpty
    · rw [if_pos hemp] at hb
      cases hb
    · rw [if_neg hemp] at hb
      simp only [Option.some.injEq] at hb
      subst hb
      set rows2 := rows.filter (fun r =>
        !(r.2.opn.isNaN || r.2.high.isNaN || r.2.low.isNaN || r.2.close.isNaN)) with hrows2
      set atrs := rollingMean 14 (trList (rows2.map Prod.snd)) with hatrs
      set pairs := (rows2.map Prod.fst).zip atrs with hpairs
      set vals := convertVals pairs tick with hvals
      have hlen : ((lastN 300 vals).map fun p => (fmtDate p.1, p.2)).length ≤ 300 := by
        simp only [List.length_map, lastN, List.length_drop]
        omega
      refine ⟨hlen, (lastN 300 vals).map Prod.fst, ?_, ?_, ?_, ?_⟩
      · rw [List.map_map, List.map_map]
        rfl
      · have h1 : ((lastN 300 vals).map Prod.fst).Sublist (vals.map Prod.fst) :=
          (List.drop_sublist _ _).map Prod.fst
        have h2 : (vals.map Prod.fst).Sublist (pairs.map Prod.fst) :=
          convertVals_fst_sublist pairs tick
        have hlenatrs : (rows2.map Prod.fst).length ≤ atrs.length := by
          rw [hatrs, length_rollingMean, length_trList]
          simp
        have h3 : pairs.map Prod.fst = rows2.map Prod.fst := by
          rw [hpairs]
          exact List.map_fst_zip _ _ hlenatrs
        have h4 : (rows2.map Prod.fst).Sublist (rows.map Prod.fst) :=
          (List.filter_sublist rows).map Prod.fst
        exact ((h1.trans h2).trans (h3 ▸ List.Sublist.refl _)).trans h4
      · intro hpw
        have hsub : ((lastN 300 vals).map Prod.fst).Sublist (rows.map Prod.fst) := by
          have h1 : ((lastN 300 vals).map Prod.fst).Sublist (vals.map Prod.fst) :=
            (List.drop_sublist _ _).map Prod.fst
          have h2 := convertVals_fst_sublist pairs tick
          have hlenatrs : (rows2.map Prod.fst).length ≤ atrs.length := by
            rw [hatrs, length_rollingMean, length_trList]
            simp
          have h3 : pairs.map Prod.fst = rows2.map Prod.fst := by
            rw [hpairs]
            exact List.map_fst_zip _ _ hlenatrs
          have h4 : (rows2.map Prod.fst).Sublist (rows.map Prod.fst) :=
            (List.filter_sublist rows).map Prod.fst
          exact ((h1.trans h2).trans (h3 ▸ List.Sublist.refl _)).trans h4
        exact hpw.sublist hsub
      · intro e he
        obtain ⟨p, hp, rfl⟩ := List.mem_map.mp he
        exact fmtDate_isDateString p.1
  refine ⟨hpart1, ?_⟩
  intro resp sym ser h
  obtain ⟨p, hp, hf⟩ := List.mem_filterMap.mp h
  rcases hresp : resp p.2 with e | rows
  · rw [hresp] at hf
    cases hf
  · rw [hresp] at hf
    dsimp only at hf
    rcases hbo : buildOne rows (TICK.lookup p.1) with _ | s
    · rw [hbo] at hf
      cases hf
    · rw [hbo] at hf
      dsimp only at hf
      by_cases hlen2 : 2 ≤ s.length
      · rw [if_pos hlen2] at hf
        simp only [Option.some.injEq, Prod.mk.injEq] at hf
        obtain ⟨rfl, rfl⟩ := hf
        exact ⟨hlen2, (hpart1 rows _ s hbo).1⟩
      · rw [if_neg hlen2] at hf
        cases hf

theorem C6_wit :
    ([("2024-01-14", Fl.fin 0), ("2024-01-15", Fl.fin 0)] : List (String × Fl)).length ≤ 300 ∧
    ∃ dts : List Date,
      ([("2024-01-14", Fl.fin 0), ("2024-01-15", Fl.fin 0)] : List (String × Fl)).map Prod.fst =
        dts.map fmtDate ∧
      dts.Sublist (((List.range 15).map fun i =>
        ({ y := 2024, m := 1, d := i + 1 }, flatBar)).map Prod.fst) ∧
      ((((List.range 15).map fun i =>
          ({ y := 2024, m := 1, d := i + 1 }, flatBar)).map Prod.fst).Pairwise dateLt →
        dts.Pairwise dateLt) ∧
      (∀ e ∈ ([("2024-01-14", Fl.fin 0), ("2024-01-15", Fl.fin 0)] : List (String × Fl)),
        isDateString e.1) :=
  C6_thm.1 ((List.range 15).map fun i => ({ y := 2024, m := 1, d := i + 1 }, flatBar)) none
    [("2024-01-14", Fl.fin 0), ("2024-01-15", Fl.fin 0)] (by with_unfolding_all decide)

/-- Claim C7 counterexample: with tick size 1 the reported conversion
of atr = 1/8 is 0.12 and of 2*(1/8) is 0.25, and 0.25 is not 2*0.12,
so the rounded conversion is not linear; moreover in snapshot mode a
null tick size reports null, not the unchanged value. -/
theorem C7_cex :
    safe_round (pipsOf (Fl.fin (1 / 8)) (some 1)) = some (3 / 25) ∧
    safe_round (pipsOf (Fl.fin (2 * (1 / 8))) (some 1)) = some (1 / 4) ∧
    (1 / 4 : ℚ) ≠ 2 * (3 / 25) ∧
    pipsOf (Fl.fin 1) none = none := by
  refine ⟨?_, ?_, ?_, ?_⟩ <;> with_unfolding_all decide

/-- Claim C7 as amended: the conversion before the two-decimal rounding
is linear (dividing a doubled ATR by the tick size doubles the
quotient); after rounding linearity can fail by one cent; with a null
tick size the historical builder passes the value through unchanged
while the snapshot reports null. -/
theorem C7_thm :
    (∀ a t : ℚ, t ≠ 0 → (Fl.fin (2 * a)).div (Fl.fin t) = Fl.fin (2 * (a / t))) ∧
    (∀ (d : Date) (q : ℚ), convertVals [(d, Fl.fin q)] none = [(d, Fl.fin q)]) ∧
    (∀ a : Fl, pipsOf a none = none) := by
  refine ⟨?_, ?_, ?_⟩
  · intro a t ht
    rw [Fl.div_fin _ _ ht, mul_div_assoc]
  · intro d q
    simp [convertVals, Fl.isNaN]
  · intro a
    rfl

theorem C7_wit : (Fl.fin (2 * 3)).div (Fl.fin 2) = Fl.fin (2 * (3 / 2)) :=
  C7_thm.1 3 2 (by norm_num)

/-- Claim C8, confirmed: the snapshot assembler is a pure function of
the adapter responses; two runs over identical responses agree on the
daily map, the hourly map, and every _meta field except the run
timestamp. -/
theorem C8_thm (resp : String → String → Except Unit (List Bar)) (now1 now2 : String) :
    (buildMarket resp now1).daily = (buildMarket resp now2).daily ∧
    (buildMarket resp now1).hourly = (buildMarket resp now2).hourly ∧
    (buildMarket resp now1).meta.source = (buildMarket resp now2).meta.source ∧
    (buildMarket resp now1).meta.atr_period = (buildMarket resp now2).meta.atr_period :=
  ⟨rfl, rfl, rfl, rfl⟩

theorem pips_round (q t : ℚ) (ht : t ≠ 0) (hq : q ≠ 0) :
    safe_round (pipsOf (Fl.fin q) (some t)) = some (round2 (q / t)) := by
  simp [pipsOf, ht, hq, Fl.isNaN, Fl.div_fin q t ht, safe_round]

/-- Claim C9, confirmed: the second TICK literal of build_history
shadows the first, so every treasury, grain, FX, RB, HO and PL symbol
has no tick size there although the first literal and the snapshot
TICK_SIZE table both carry one; consequently the historical builder
passes those symbols through in raw price points while the snapshot
pipeline divides by the tick size and rounds. -/
theorem C9_thm : ∀ sym ∈ shadowedSyms,
    TICK.lookup sym = none ∧
    (TICK_first.lookup sym).isSome = true ∧
    0 < (TICK_SIZE.lookup sym).getD 0 ∧
    (∀ pairs : List (Date × Fl), convertVals pairs (TICK.lookup sym) =
      pairs.filter fun p => !p.2.isNaN) ∧
    (∀ q : ℚ, q ≠ 0 → safe_round (pipsOf (Fl.fin q) (TICK_SIZE.lookup sym)) =
      some (round2 (q / (TICK_SIZE.lookup sym).getD 0))) := by
  have H : ∀ s ∈ shadowedSyms,
      TICK.lookup s = none ∧ (TICK_first.lookup s).isSome = true ∧
      0 < (TICK_SIZE.lookup s).getD 0 := by
    with_unfolding_all decide
  intro sym hmem
  obtain ⟨h1, h2, h3⟩ := H sym hmem
  refine ⟨h1, h2, h3, ?_, ?_⟩
  · intro pairs
    rw [h1]
    rfl
  · intro q hq
    rcases hlk : TICK_SIZE.lookup sym with _ | t
    · rw [hlk] at h3
      simp at h3
    · rw [hlk] at h3
      simp only [Option.getD_some] at h3 ⊢
      exact pips_round q t h3.ne' hq

theorem C9_wit :
    TICK.lookup "ZB" = none ∧
    (TICK_first.lookup "ZB").isSome = true ∧
    0 < (TICK_SIZE.lookup "ZB").getD 0 ∧
    (∀ pairs : List (Date × Fl), convertVals pairs (TICK.lookup "ZB") =
      pairs.filter fun p => !p.2.isNaN) ∧
    (∀ q : ℚ, q ≠ 0 → safe_round (pipsOf (Fl.fin q) (TICK_SIZE.lookup "ZB")) =
      some (round2 (q / (TICK_SIZE.lookup "ZB").getD 0))) :=
  C9_thm "ZB" (by decide)

/-- Claim C10 counterexample: an emitted snapshot entry with trend up
and null pct: two bars whose last close is positive infinity pass the
notna guard, the percent becomes infinite, and safe_round turns it
into null while the trend stays up, breaking the claimed pairing. -/
theorem C10_cex :
    ((buildMarket (fun _ _ => Except.ok
        [flatBar, { opn := Fl.fin 1, high := Fl.fin 1, low := Fl.fin 1, close := Fl.inf }])
      "t").daily.lookup "ES") =
      some { trend := Trend.up, pips := none, usd := none, pct := none } := by
  with_unfolding_all decide

/-- Claim C10 as amended: for every snapshot entry built from bars
whose closes are never plus or minus infinity (NaN and finite closes
are allowed), a null pct forces trend flat and a non-flat trend forces
a non-null pct. -/
theorem C10_thm (bars : List Bar) (tick : Option ℚ)
    (hni : ∀ b ∈ bars, b.close.isInfinite = false) :
    ((mkEntry bars tick).pct = none → (mkEntry bars tick).trend = Trend.flat) ∧
    ((mkEntry bars tick).trend ≠ Trend.flat → (mkEntry bars tick).pct ≠ none) := by
  have hpct : (mkEntry bars tick).pct = safe_round (pct_and_trend bars).1 := rfl
  have htrd : (mkEntry bars tick).trend = (pct_and_trend bars).2 := rfl
  rw [hpct, htrd]
  rcases hrev : bars.reverse with _ | ⟨b2, _ | ⟨b1, rest⟩⟩
  · have hpt : pct_and_trend bars = (none, Trend.flat) := by
      unfold pct_and_trend
      rw [hrev]
    rw [hpt]
    exact ⟨fun _ => rfl, fun hne => absurd rfl hne⟩
  · have hpt : pct_and_trend bars = (none, Trend.flat) := by
      unfold pct_and_trend
      rw [hrev]
    rw [hpt]
    exact ⟨fun _ => rfl, fun hne => absurd rfl hne⟩
  · have hpt : pct_and_trend bars = pctCore b2.close b1.close := by
      unfold pct_and_trend
      rw [hrev]
    have hb2 : b2 ∈ bars := by
      rw [← List.mem_reverse, hrev]
      exact List.mem_cons_self _ _
    have hb1 : b1 ∈ bars := by
      rw [← List.mem_reverse, hrev]
      exact List.mem_cons_of_mem _ (List.mem_cons_self _ _)
    have hni2 := hni b2 hb2
    have hni1 := hni b1 hb1
    rw [hpt]
    unfold pctCore
    by_cases hg : b2.close.isNaN ∨ b1.close.isNaN ∨ b1.close = Fl.fin 0
    · rw [if_pos hg]
      exact ⟨fun _ => rfl, fun hne => absurd rfl hne⟩
    · rw [if_neg hg]
      push_neg at hg
      obtain ⟨hn2, hn1, hz⟩ := hg
      rcases hc2 : b2.close with _ | _ | _ | q2
      · rw [hc2] at hn2
        exact absurd rfl hn2
      · rw [hc2] at hni2
        exact absurd hni2 (by simp [Fl.isInfinite])
      · rw [hc2] at hni2
        exact absurd hni2 (by simp [Fl.isInfinite])
      rcases hc1 : b1.close with _ | _ | _ | q1
      · rw [hc1] at hn1
        exact absurd rfl hn1
      · rw [hc1] at hni1
        exact absurd hni1 (by simp [Fl.isInfinite])
      · rw [hc1] at hni1
        exact absurd hni1 (by simp [Fl.isInfinite])
      have hq1 : q1 ≠ 0 := by
        intro hq
        rw [hc1, hq] at hz
        exact hz rfl
      constructor
      · intro hcon
        simp [safe_round, Fl.sub_fin, Fl.abs_fin, Fl.div_fin _ _ (abs_ne_zero.mpr hq1),
          Fl.mul_fin] at hcon
      · intro _
        simp [safe_round, Fl.sub_fin, Fl.abs_fin, Fl.div_fin _ _ (abs_ne_zero.mpr hq1),
          Fl.mul_fin]

theorem C10_wit :
    ((mkEntry [flatBar, { opn := Fl.fin 6, high := Fl.fin 6, low := Fl.fin 6, close := Fl.fin 6 }]
        (some (1 / 4))).pct = none →
      (mkEntry [flatBar, { opn := Fl.fin 6, high := Fl.fin 6, low := Fl.fin 6, close := Fl.fin 6 }]
        (some (1 / 4))).trend = Trend.flat) ∧
    ((mkEntry [flatBar, { opn := Fl.fin 6, high := Fl.fin 6, low := Fl.fin 6, close := Fl.fin 6 }]
        (some (1 / 4))).trend ≠ Trend.flat →
      (mkEntry [flatBar, { opn := Fl.fin 6, high := Fl.fin 6, low := Fl.fin 6, close := Fl.fin 6 }]
        (some (1 / 4))).pct ≠ none) :=
  C10_thm [flatBar, { opn := Fl.fin 6, high := Fl.fin 6, low := Fl.fin 6, close := Fl.fin 6 }]
    (some (1 / 4)) (by with_unfolding_all decide)
